import Mathlib

/-!
Verification of the order-notification and handler-assignment workflow of the
Somah marketplace backend, shallowly embedded from `telegram-bot.js` and the
order routes.

Every money amount in the data model is a `DECIMAL(10,2)` database column, so
an amount is represented here by its exact number of cents, an integer.  The
JavaScript arithmetic the source performs on such amounts is IEEE-754
binary64 (double) arithmetic; it is modelled exactly: a double is carried as
the dyadic rational it denotes (an integer numerator over a power of two),
every operation rounds its exact rational result to 53 significant bits with
round-to-nearest, ties-to-even, `toFixed(2)` follows the ECMA-262
description (the integer `n` with `n / 10^2` as close as possible to the
double's exact value, ties to the larger `n`), and number-to-string
interpolation follows ECMA-262 `Number::toString` (the shortest decimal
digit sequence that rounds back to the same double, closest such; the values
reachable here lie in the plain-notation range `10^-6 < |v| < 10^21`).
-/

/-- Two-digit zero-padded rendering of a value below 100 (used for the cents
part of a fixed-point rendering). -/
def pad2 (n : Nat) : String :=
  if n < 10 then "0" ++ toString n else toString n

/-- Render an integer number of cents with exactly two decimal places, the
way `Number.prototype.toFixed(2)` prints its rounded result. -/
def fixed2OfInt (n : Int) : String :=
  (if n < 0 then "-" else "") ++ toString (n.natAbs / 100) ++ "." ++ pad2 (n.natAbs % 100)

/-!
## Binary64 (double) arithmetic

A double's value is carried exactly as `num / 2^pow`.  `roundQ n d` rounds
the rational `n / d` to the nearest binary64 value (53 significant bits,
ties to even); every value reachable in this program is in the normal range,
so neither subnormals nor overflow arise.
-/

/-- A binary64 value, carried as the exact dyadic rational `num / 2^pow`
(representation need not be canonical; comparisons are by value). -/
structure Dyadic where
  num : Int
  pow : Nat
deriving DecidableEq

/-- Largest `e` with `d·2^e ≤ a` (for `a ≥ d`), by fuelled doubling. -/
def expUp (a : Nat) : Nat → Nat → Nat
  | _, 0 => 0
  | d, fuel+1 => if d * 2 ≤ a then expUp a (d * 2) fuel + 1 else 0

/-- Smallest `f ≥ 1` with `a·2^f ≥ d` (for `a < d`), by fuelled doubling. -/
def expDown (a : Nat) (d : Nat) : Nat → Nat
  | 0 => 1
  | fuel+1 => if a * 2 ≥ d then 1 else expDown (a * 2) d fuel + 1

/-- Round `p / q` (with `q > 0`) to the nearest integer, ties to even. -/
def rne (p q : Nat) : Nat :=
  let t := p / q
  let r := p % q
  if 2 * r < q then t
  else if 2 * r > q then t + 1
  else if t % 2 = 0 then t else t + 1

/-- Round the rational `n / d` (with `d > 0`) to the nearest binary64 value:
locate the binade `2^e ≤ |n/d| < 2^(e+1)`, round the 53-bit significand to
nearest-even, and renormalize if the significand rounds up to `2^53`. -/
def roundQ (n : Int) (d : Nat) : Dyadic :=
  if n = 0 then ⟨0, 0⟩
  else
    let a := n.natAbs
    let e : Int := if a ≥ d then (expUp a d 1200 : Int) else -(expDown a d 1200 : Int)
    let m := if 0 ≤ 52 - e then rne (a * 2 ^ (52 - e).toNat) d else rne a (d * 2 ^ (e - 52).toNat)
    let m2 := if m = 2 ^ 53 then 2 ^ 52 else m
    let e2 := if m = 2 ^ 53 then e + 1 else e
    let sgn : Int := if n < 0 then -1 else 1
    if 52 ≤ e2 then ⟨sgn * (m2 * 2 ^ (e2 - 52).toNat : Nat), 0⟩ else ⟨sgn * m2, (52 - e2).toNat⟩

/-- The double a `DECIMAL(10,2)` amount of `c` cents becomes when the JSON
number reaches JavaScript: the nearest binary64 to `c / 100`. -/
def dvalOfCents (c : Int) : Dyadic := roundQ c 100

/-- `x - k` in double arithmetic, `k` an exactly representable integer
(the source's `order.total_amount - 20`). -/
def flSubInt (x : Dyadic) (k : Int) : Dyadic :=
  roundQ (x.num - k * 2 ^ x.pow) (2 ^ x.pow)

/-- `x * y` in double arithmetic. -/
def flMul (x y : Dyadic) : Dyadic :=
  roundQ (x.num * y.num) (2 ^ (x.pow + y.pow))

/-- `x - y` in double arithmetic. -/
def flSubD (x y : Dyadic) : Dyadic :=
  roundQ (x.num * 2 ^ y.pow - y.num * 2 ^ x.pow) (2 ^ (x.pow + y.pow))

/-- `v.toFixed(2)`'s rounded value in cents, for a double `v = m / 2^f`:
ECMA-262 picks the integer closest to `v·100`, ties to the larger one, i.e.
`⌊v·100 + 1/2⌋ = ⌊(m·200 + 2^f) / 2^(f+1)⌋` (floor division). -/
def centsHalfUp (x : Dyadic) : Int :=
  (x.num * 200 + 2 ^ x.pow) / (2 ^ (x.pow + 1) : Nat)

/-- The double literal `0.05` of the source. -/
def d005 : Dyadic := roundQ 5 100

/-- `amountAfterDeliveryFee = order.total_amount - 20` in double
arithmetic, for a total of `total` cents. -/
def afdD (total : Int) : Dyadic := flSubInt (dvalOfCents total) 20

/-- The double value of `amountAfterDeliveryFee * 0.05`. -/
def commissionD (total : Int) : Dyadic := flMul (afdD total) d005

/-- The cents rendered by `(amountAfterDeliveryFee * 0.05).toFixed(2)`. -/
def commissionCents (total : Int) : Int := centsHalfUp (commissionD total)

/-- The double value of `amountAfterDeliveryFee - commission`: JavaScript
coerces the rendered commission string back to the double nearest its
2-decimal value. -/
def payoutD (total : Int) : Dyadic :=
  flSubD (afdD total) (dvalOfCents (commissionCents total))

/-- The cents rendered by `(amountAfterDeliveryFee - commission).toFixed(2)`. -/
def payoutCents (total : Int) : Int := centsHalfUp (payoutD total)

/-- Value equality of two dyadics. -/
def dyadicEqVal (u v : Dyadic) : Bool :=
  u.num * 2 ^ v.pow = v.num * 2 ^ u.pow

/-- Smallest `n ≥ 1` with `a/p < 10^n` (for `a ≥ p`), by fuelled scaling. -/
def decUp (a : Nat) : Nat → Nat → Nat
  | _, 0 => 1
  | p, fuel+1 => if a < p * 10 then 1 else decUp a (p * 10) fuel + 1

/-- Smallest `t ≥ 0` with `a·10^(t+1) ≥ p` (for `a < p`). -/
def decDown : Nat → Nat → Nat → Nat
  | _, _, 0 => 0
  | a, p, fuel+1 => if a * 10 ≥ p then 0 else decDown (a * 10) p fuel + 1

/-- ECMA-262 `Number::toString` formatting of a `k`-digit significand `s`
with decimal exponent `n` in the plain-notation range `-6 < n ≤ 21`. -/
def formatDigits (s : Nat) (k : Nat) (n : Int) : String :=
  let ds := toString s
  if (k : Int) ≤ n then ds ++ String.mk (List.replicate (n - k).toNat '0')
  else if 0 < n then
    String.mk (ds.data.take n.toNat) ++ "." ++ String.mk (ds.data.drop n.toNat)
  else "0." ++ String.mk (List.replicate (-n).toNat '0') ++ ds

/-- One step of the shortest-round-trip search: for digit count `k`, the
scaled value `w = (a/p)·10^(k-n)` lies in `[10^(k-1), 10^k)`; the only
integers that can round back to the double are `⌊w⌋` and `⌊w⌋+1`.  Return
the formatted digits if one of them does (the closer one when both do; an
exact tie — ECMA leaves the digit choice to the implementation — is broken
to the even significand, matching the platform's rounding convention). -/
def tryK (a p : Nat) (n : Int) (xabs : Dyadic) (k : Nat) : Option String :=
  let num := if n ≤ (k : Int) then a * 10 ^ ((k : Int) - n).toNat else a
  let den := if n ≤ (k : Int) then p else p * 10 ^ (n - (k : Int)).toNat
  let s0 := num / den
  let rt : Nat → Bool := fun s =>
    if (k : Int) ≤ n then dyadicEqVal (roundQ (s * 10 ^ (n - (k : Int)).toNat : Nat) 1) xabs
    else dyadicEqVal (roundQ (s : Nat) (10 ^ ((k : Int) - n).toNat)) xabs
  let ok0 := rt s0
  let ok1 := s0 + 1 < 10 ^ k && rt (s0 + 1)
  if ok0 && ok1 then
    let c := den * (2 * s0 + 1)
    if 2 * num < c then some (formatDigits s0 k n)
    else if 2 * num > c then some (formatDigits (s0 + 1) k n)
    else some (formatDigits (if s0 % 2 = 0 then s0 else s0 + 1) k n)
  else if ok0 then some (formatDigits s0 k n)
  else if ok1 then some (formatDigits (s0 + 1) k n)
  else none

/-- ECMA-262 `Number::toString` of a double: the shortest decimal digit
sequence (at most 17 digits) whose value rounds back to the same double,
formatted in plain notation.  This is what a template interpolation `${x}`
renders for a number. -/
def jsDoubleToString (x : Dyadic) : String :=
  if x.num = 0 then "0"
  else
    let a := x.num.natAbs
    let p := 2 ^ x.pow
    let n : Int := if a ≥ p then (decUp a p 400 : Int) else -(decDown a p 400 : Int)
    let xabs : Dyadic := ⟨(a : Int), x.pow⟩
    let body := (((List.range 17).map (fun i => tryK a p n xabs (i + 1))).filterMap id).headD "?"
    (if x.num < 0 then "-" else "") ++ body

/-- `String.prototype.toLowerCase()` (character-wise, as applies to the ASCII
team-member names of the source). -/
def jsToLower (s : String) : String := String.mk (s.data.map Char.toLower)

/-- `handler.charAt(0).toUpperCase() + handler.slice(1)` from the source
(`""` stays `""`, as in JavaScript). -/
def jsCapitalize (s : String) : String :=
  match s.data with
  | [] => ""
  | c :: cs => String.mk (c.toUpper :: cs)

/-- Parse a string as a non-negative decimal numeral (the shape JavaScript
accepts for a canonical array-index property key). -/
def strToNat? (s : String) : Option Nat :=
  if s.data ≠ [] ∧ s.data.all Char.isDigit then
    some (s.data.foldl (fun a c => a * 10 + (c.toNat - 48)) 0)
  else none

/-- Does `n` occur at the start of `h`? (character-list level). -/
def startsWithL : List Char → List Char → Bool
  | [], _ => true
  | _ :: _, [] => false
  | a :: as, b :: bs => a == b && startsWithL as bs

/-- Does `n` occur contiguously anywhere inside `h`? (character-list level). -/
def containsL (n : List Char) : List Char → Bool
  | [] => n.isEmpty
  | c :: rest => startsWithL n (c :: rest) || containsL n rest

/-- `sub` occurs contiguously inside `hay`. -/
def containsStr (hay sub : String) : Prop :=
  containsL sub.data hay.data = true

instance (hay sub : String) : Decidable (containsStr hay sub) :=
  inferInstanceAs (Decidable (_ = true))

theorem strData_append (a b : String) : (a ++ b).data = a.data ++ b.data := by
  cases a; cases b; rfl

theorem startsWithL_append (n h t : List Char) (hs : startsWithL n h = true) :
    startsWithL n (h ++ t) = true := by
  induction n generalizing h with
  | nil => rfl
  | cons a as ih =>
    cases h with
    | nil => simp [startsWithL] at hs
    | cons b bs =>
      simp only [startsWithL, Bool.and_eq_true] at hs ⊢
      exact ⟨hs.1, ih bs hs.2⟩

theorem startsWithL_self (n t : List Char) : startsWithL n (n ++ t) = true := by
  induction n with
  | nil => rfl
  | cons a as ih => simp [startsWithL, ih]

theorem containsL_of_startsWithL (n h : List Char) (hs : startsWithL n h = true) :
    containsL n h = true := by
  cases h with
  | nil =>
    cases n with
    | nil => rfl
    | cons a as => simp [startsWithL] at hs
  | cons c rest => simp [containsL, hs]

theorem containsL_append_right (n a b : List Char) (hb : containsL n b = true) :
    containsL n (a ++ b) = true := by
  induction a with
  | nil => simpa using hb
  | cons c a ih => simp [containsL, ih]

theorem containsL_append_left (n a b : List Char) (ha : containsL n a = true) :
    containsL n (a ++ b) = true := by
  induction a with
  | nil =>
    cases n with
    | nil =>
      cases b with
      | nil => rfl
      | cons c rest => simp [containsL, startsWithL]
    | cons x xs => simp [containsL, List.isEmpty] at ha
  | cons c a ih =>
    simp only [containsL, Bool.or_eq_true] at ha
    rcases ha with hs | hrest
    · simp only [List.cons_append, containsL, Bool.or_eq_true]
      exact Or.inl (startsWithL_append n (c :: a) b hs)
    · simp [containsL, ih hrest]

theorem containsStr_inl (a b s : String) (h : containsStr a s) : containsStr (a ++ b) s := by
  unfold containsStr at h ⊢
  rw [strData_append]
  exact containsL_append_left _ _ _ h

theorem containsStr_inr (a b s : String) (h : containsStr b s) : containsStr (a ++ b) s := by
  unfold containsStr at h ⊢
  rw [strData_append]
  exact containsL_append_right _ _ _ h

theorem containsStr_refl (s : String) : containsStr s s := by
  unfold containsStr
  have h := startsWithL_self s.data []
  rw [List.append_nil] at h
  exact containsL_of_startsWithL _ _ h

/-- Concatenation of a list of strings (the result of the source's repeated
`message += …` accumulation). -/
def concatS : List String → String
  | [] => ""
  | s :: rest => s ++ concatS rest

theorem containsStr_concat {α : Type} (f : α → String) (l : List α) (x : α) (hx : x ∈ l) :
    containsStr (concatS (l.map f)) (f x) := by
  induction l with
  | nil => cases hx
  | cons y ys ih =>
    rcases List.mem_cons.mp hx with rfl | hmem
    · exact containsStr_inl _ _ _ (containsStr_refl _)
    · exact containsStr_inr _ _ _ (ih hmem)

/-!
## JavaScript object property order

The source accumulates groups in plain JavaScript objects (`storeGroups`,
`uniqueStores`) and iterates them with `Object.entries`.  ES2020
`[[OwnPropertyKeys]]` lists properties whose key is a canonical array index
(the decimal numeral of an integer below `2^32 - 1`, no leading zeros) first,
in ascending numeric order, and all other string keys afterwards in insertion
order.  We model an object as an insertion-ordered association list and
`Object.entries` as the reordering just described.
-/

/-- Is `s` a canonical array-index property key (ES `[[OwnPropertyKeys]]`)? -/
def isArrayIndexKey (s : String) : Bool :=
  match strToNat? s with
  | some n => decide (toString n = s ∧ n < 4294967295)
  | none => false

/-- Numeric value used to order array-index keys. -/
def idxKey (s : String) : Nat := (strToNat? s).getD 0

/-- Insert into a list of entries kept in ascending `idxKey` order. -/
def insertIdx {α : Type} (x : String × α) : List (String × α) → List (String × α)
  | [] => [x]
  | y :: ys => if idxKey x.1 ≤ idxKey y.1 then x :: y :: ys else y :: insertIdx x ys

/-- Sort entries by ascending `idxKey`. -/
def sortIdx {α : Type} (l : List (String × α)) : List (String × α) :=
  l.foldr insertIdx []

/-- `Object.entries` of an insertion-ordered object: array-index keys first
in ascending numeric order, then the remaining keys in insertion order. -/
def jsEntries {α : Type} (l : List (String × α)) : List (String × α) :=
  sortIdx (l.filter (fun p => isArrayIndexKey p.1)) ++
    l.filter (fun p => !isArrayIndexKey p.1)

/-!
## Data model

Mirrors the `orders`, `order_items`, `store_locations` and
`telegram_notifications` tables as the bot reads them (`schema.sql`,
`telegram-bot.js`).  Nullable text columns are `Option String`; `sent_at`
timestamps are carried as opaque strings; `created_at` of a notification is
the creation instant used for ordering.
-/

structure OrderItem where
  product_name : String
  quantity : Nat
  price : Int
  original_price : Int
  store_name : String
  store_id : Option String
  image_url : Option String
deriving DecidableEq

structure Order where
  id : String
  order_number : String
  full_name : String
  phone : String
  address_line1 : String
  address_line2 : Option String
  city : String
  emirate : String
  total_amount : Int
  payment_method : String
  notes : Option String
  created_at : String
  order_items : List OrderItem
deriving DecidableEq

structure StoreLocation where
  store_id : String
  location_type : String
  street_number : String
  street_name : String
  place_name : String
  additional_info : Option String
deriving DecidableEq

structure NotificationRecord where
  id : String
  order_id : String
  notification_type : String
  message : String
  sent : Bool
  sent_at : Option String
  created_at : Nat
deriving DecidableEq

/-- `TEAM_MEMBERS` from `telegram-bot.js`. -/
def TEAM_MEMBERS : List String := ["Khaled", "Hamad", "Malil"]

/-- One inline-keyboard button as built by the source. -/
structure Button where
  text : String
  callback_data : String
deriving DecidableEq

/-- `createHandlerKeyboard(orderId)`: one button per team member. -/
def createHandlerKeyboard (orderId : String) : List (List Button) :=
  [TEAM_MEMBERS.map (fun member =>
    ⟨"👤 Handled by " ++ member, "handle_" ++ orderId ++ "_" ++ jsToLower member⟩)]

/-- `createHandledKeyboard(handler)`: the single disabled acknowledgement
control of an assigned message. -/
def createHandledKeyboard (handler : String) : List (List Button) :=
  [[⟨"✅ Handled by " ++ handler, "handled"⟩]]

/-- JavaScript truthiness of an optional string (both `null`/`undefined` and
`""` are falsy). -/
def truthy : Option String → Bool
  | none => false
  | some s => s ≠ ""

/-- The `.single()` lookup `from('store_locations').select('*').eq('store_id', sid)`:
PostgREST `.single()` yields data exactly when one row matches. -/
def lookupStoreLocation (db : List StoreLocation) (sid : String) : Option StoreLocation :=
  match db.filter (fun l => l.store_id = sid) with
  | [l] => some l
  | _ => none

/-- The `.single()` lookup of an order by `id` (with its items). -/
def lookupOrder (orders : List Order) (oid : String) : Option Order :=
  match orders.filter (fun o => o.id = oid) with
  | [o] => some o
  | _ => none

/-!
## Message formatter (`formatOrderMessage`, telegram-bot.js lines 28-137)

Each `def` below renders the chunk appended by the corresponding
`message += …` statement of the source.
-/

/-- `storeGroups[item.store_name].push(item)` with create-if-absent. -/
def insertGroup (groups : List (String × List OrderItem)) (it : OrderItem) :
    List (String × List OrderItem) :=
  if groups.any (fun p => p.1 = it.store_name) then
    groups.map (fun p => if p.1 = it.store_name then (p.1, p.2 ++ [it]) else p)
  else groups ++ [(it.store_name, [it])]

/-- The `storeGroups` object: items grouped by `store_name`. -/
def buildStoreGroups (items : List OrderItem) : List (String × List OrderItem) :=
  items.foldl insertGroup []

/-- `- ${item.quantity}x ${item.product_name} (AED ${item.price})\n`
(the price interpolated through `Number::toString` of its double). -/
def renderItemLine (it : OrderItem) : String :=
  "- " ++ toString it.quantity ++ "x " ++ it.product_name ++
    " (AED " ++ jsDoubleToString (dvalOfCents it.price) ++ ")\n"

/-- One store sub-block of the ORDER DETAILS section. -/
def renderStoreGroup (p : String × List OrderItem) : String :=
  "<b>Store: " ++ p.1 ++ "</b>\n" ++ concatS (p.2.map renderItemLine) ++ "\n"

/-- The ORDER DETAILS section: `Object.entries(storeGroups).forEach(...)`. -/
def renderOrderDetails (items : List OrderItem) : String :=
  "📦 <b>ORDER DETAILS:</b>\n" ++
    concatS ((jsEntries (buildStoreGroups items)).map renderStoreGroup)

/-- `After Delivery Fee: AED ${amountAfterDeliveryFee}\n` — the raw double
`fl(total - 20)` interpolated through `Number::toString`, without decimal
formatting. -/
def afterFeeLine (total : Int) : String :=
  "After Delivery Fee: AED " ++ jsDoubleToString (afdD total) ++ "\n"

/-- `5% Commission: AED ${commission} (Somah)\n` where
`commission = (amountAfterDeliveryFee * 0.05).toFixed(2)` in double
arithmetic. -/
def commissionLine (total : Int) : String :=
  "5% Commission: AED " ++ fixed2OfInt (commissionCents total) ++ " (Somah)\n"

/-- `Store Payout: AED ${storePayout}\n` where
`storePayout = (amountAfterDeliveryFee - commission).toFixed(2)`: JavaScript
coerces the rendered `commission` string back to the double nearest its
value, subtracts in double arithmetic, and `toFixed(2)` rounds the result
to two decimals. -/
def storePayoutLine (total : Int) : String :=
  "Store Payout: AED " ++ fixed2OfInt (payoutCents total) ++ "\n"

/-- The FINANCIAL BREAKDOWN section (`amountAfterDeliveryFee =
order.total_amount - 20` in double arithmetic). -/
def renderFinancialBreakdown (total : Int) : String :=
  "💰 <b>FINANCIAL BREAKDOWN:</b>\n" ++
    ("Total Amount: AED " ++ jsDoubleToString (dvalOfCents total) ++
      " (includes 20 AED delivery fee)\n") ++
    afterFeeLine total ++
    commissionLine total ++
    storePayoutLine total ++ "\n"

/-- The generic fallback rendered when no usable store location is found. -/
def pickupFallback : String :=
  "📍 Store Location: Contact store owner for pickup details\n" ++
    "📞 Store Contact: Available in store management\n"

/-- The structured pickup details of a found store location. -/
def renderLocationDetails (loc : StoreLocation) : String :=
  "📍 " ++ jsCapitalize loc.location_type ++ "\n" ++
    ("🏠 " ++ loc.street_number ++ " " ++ loc.street_name ++ "\n") ++
    ("📍 " ++ loc.place_name ++ "\n") ++
    (if truthy loc.additional_info then "📝 " ++ loc.additional_info.getD "" ++ "\n" else "")

/-- One store entry of the STORE PICKUP DETAILS section:
`if (storeLocation && storeLocation.location_type) … else fallback`. -/
def renderPickupEntry (db : List StoreLocation) (p : String × String) : String :=
  "<b>" ++ p.2 ++ ":</b>\n" ++
    (match lookupStoreLocation db p.1 with
     | some loc => if loc.location_type ≠ "" then renderLocationDetails loc else pickupFallback
     | none => pickupFallback) ++ "\n"

/-- `uniqueStores[item.store_id] = item.store_name` (assignment of an
existing key keeps its insertion position). -/
def setStore (acc : List (String × String)) (sid name : String) : List (String × String) :=
  if acc.any (fun p => p.1 = sid) then
    acc.map (fun p => if p.1 = sid then (sid, name) else p)
  else acc ++ [(sid, name)]

/-- The `uniqueStores` object: `if (item.store_id && !uniqueStores[item.store_id])
uniqueStores[item.store_id] = item.store_name` — the guard is JavaScript
truthiness of the id and of the stored value. -/
def uniqueStores (items : List OrderItem) : List (String × String) :=
  items.foldl (fun acc it =>
    match it.store_id with
    | some sid =>
      if sid ≠ "" ∧ ¬ truthy ((acc.find? (fun p => p.1 = sid)).map Prod.snd) = true then
        setStore acc sid it.store_name
      else acc
    | none => acc) []

/-- The STORE PICKUP DETAILS section: a `store_locations` lookup per distinct
store id of the order's items. -/
def renderPickupSection (db : List StoreLocation) (items : List OrderItem) : String :=
  "🏪 <b>STORE PICKUP DETAILS:</b>\n" ++
    concatS ((jsEntries (uniqueStores items)).map (renderPickupEntry db))

/-- The source renders `order.created_at` through
`new Date(order.created_at).toLocaleString('en-US', {fixed options})` — an
environment-provided locale mapping applied to the stored timestamp and to
nothing else.  We model that mapping abstractly as the stored timestamp
itself, which preserves the two facts the spec relies on: the rendered date
is a function of `order.created_at` alone, and the date line is always
emitted into the message. -/
def renderOrderDate (created_at : String) : String := created_at

/-- `📅 <b>Order Date:</b> …`. -/
def orderDateLine (created_at : String) : String :=
  "📅 <b>Order Date:</b> " ++ renderOrderDate created_at ++ "\n"

/-- `💳 <b>Payment:</b> …` with the `cash_on_delivery` translation. -/
def paymentLine (method : String) : String :=
  "💳 <b>Payment:</b> " ++
    (if method = "cash_on_delivery" then "Cash on Delivery" else method) ++ "\n"

/-- `formatOrderMessage(order, handledBy)`, telegram-bot.js lines 28-137.
The `db` argument is the `store_locations` table the source reads through
`supabaseAdmin` while rendering. -/
def formatOrderMessage (db : List StoreLocation) (order : Order)
    (handledBy : Option String) : String :=
  "🛍️ <b>NEW ORDER #" ++ order.order_number ++ "</b>\n" ++
    "━━━━━━━━━━━━━━━━━━━━━━━━━\n\n" ++
    "👤 <b>CUSTOMER DETAILS:</b>\n" ++
    ("Name: " ++ order.full_name ++ "\n") ++
    ("Phone: " ++ order.phone ++ "\n") ++
    ("Address: " ++ order.address_line1) ++
    (if truthy order.address_line2 then ", " ++ order.address_line2.getD "" else "") ++
    ("\n" ++ order.city ++ ", " ++ order.emirate ++ "\n\n") ++
    renderOrderDetails order.order_items ++
    renderFinancialBreakdown order.total_amount ++
    renderPickupSection db order.order_items ++
    orderDateLine order.created_at ++
    paymentLine order.payment_method ++
    (if truthy order.notes then "📝 <b>Notes:</b> " ++ order.notes.getD "" ++ "\n" else "") ++
    (if truthy handledBy then "\n✅ <b>Handled by: " ++ handledBy.getD "" ++ "</b>\n" else "") ++
    "\n━━━━━━━━━━━━━━━━━━━━━━━━━"

/-!
## Dispatcher and assignment handler (`telegram-bot.js` lines 170-345)
-/

/-- A message sent to the operations chat. -/
structure SentChatMessage where
  chat_id : Int
  text : String
  keyboard : List (List Button)
deriving DecidableEq

/-- The bot process state: the dynamically discovered `CHAT_ID`, the database
tables it reads and writes, and the chat messages sent so far. -/
structure BotState where
  chat_id : Option Int
  orders : List Order
  store_locations : List StoreLocation
  notifications : List NotificationRecord
  outbox : List SentChatMessage
deriving DecidableEq

/-- `sendOrderNotification(orderId)` (lines 170-225): bail out without `CHAT_ID`;
fetch the order with its items and bail out on error; otherwise send the
formatted message with the handler keyboard and update
`telegram_notifications … set sent, sent_at where order_id = orderId`. -/
def sendOrderNotification (st : BotState) (now : String) (orderId : String) : BotState :=
  match st.chat_id with
  | none => st
  | some chat =>
    match lookupOrder st.orders orderId with
    | none => st
    | some order =>
      { st with
        outbox := st.outbox ++
          [⟨chat, formatOrderMessage st.store_locations order none,
            createHandlerKeyboard orderId⟩],
        notifications := st.notifications.map (fun n =>
          if n.order_id = orderId then { n with sent := true, sent_at := some now } else n) }

/-- Keep a list in ascending `created_at` order while inserting. -/
def insertCreated (x : NotificationRecord) : List NotificationRecord → List NotificationRecord
  | [] => [x]
  | y :: ys => if x.created_at ≤ y.created_at then x :: y :: ys else y :: insertCreated x ys

/-- `order('created_at', { ascending: true })`. -/
def sortByCreated (l : List NotificationRecord) : List NotificationRecord :=
  l.foldr insertCreated []

/-- The poll query (lines 324-330): `sent = false`, `notification_type =
'new_order'`, ascending `created_at`, `limit(10)`. -/
def pollBatch (notifs : List NotificationRecord) : List NotificationRecord :=
  (sortByCreated (notifs.filter (fun n =>
    n.sent = false ∧ n.notification_type = "new_order"))).take 10

/-- `pollNotifications()` (lines 322-345): process the fetched batch in list
order, sending each referenced order. -/
def pollNotifications (st : BotState) (now : String) : BotState :=
  (pollBatch st.notifications).foldl (fun s n => sendOrderNotification s now n.order_id) st

/-- `data.split('_')` at the character-list level (single-character
separator, JavaScript semantics: `"".split('_')` is `[""]`). -/
def splitChars (sep : Char) : List Char → List (List Char)
  | [] => [[]]
  | c :: cs =>
    if c = sep then [] :: splitChars sep cs
    else
      match splitChars sep cs with
      | [] => [[c]]
      | g :: gs => (c :: g) :: gs

/-- `data.split('_')`. -/
def jsSplit (s : String) (sep : Char) : List String :=
  (splitChars sep s.data).map String.mk

/-- The observable outcome of one `callback_query` event: the message edit
performed (new text and reply markup), if any, and the
`answerCallbackQuery` notice (text, `show_alert`), if any. -/
structure CallbackResult where
  edited : Option (String × List (List Button))
  answer : Option (String × Bool)
deriving DecidableEq

/-- The `bot.on('callback_query')` handler (lines 245-317).  `data ===
'handled'` answers "already assigned" without editing; a non-`handle` action
tag returns silently; a payload with no third segment makes
`handler.charAt(0)` throw `TypeError`, landing in the catch branch; an order
fetch error answers with an alert; otherwise the message is re-rendered with
the capitalized handler name and edited to the disabled keyboard. -/
def handleCallbackQuery (orders : List Order) (locs : List StoreLocation)
    (data : String) : CallbackResult :=
  if data = "handled" then
    ⟨none, some ("✅ This order is already assigned", false)⟩
  else if ((jsSplit data '_').get? 0).getD "" ≠ "handle" then ⟨none, none⟩
  else
    match (jsSplit data '_').get? 2 with
    | none => ⟨none, some ("❌ An error occurred", true)⟩
    | some handler =>
      match lookupOrder orders (((jsSplit data '_').get? 1).getD "") with
      | none => ⟨none, some ("❌ Error updating order", true)⟩
      | some order =>
        ⟨some (formatOrderMessage locs order (some (jsCapitalize handler)),
           createHandledKeyboard (jsCapitalize handler)),
         some ("✅ Order assigned to " ++ jsCapitalize handler, false)⟩

/-!
## Order routes (`routes/orders.js`)
-/

/-- An HTTP response of the status-update route. -/
inductive HttpResponse
  | ok
  | err (code : Nat) (msg : String)
deriving DecidableEq

/-- The externally visible database/notification operations a route issues,
in program order. -/
inductive DbEffect
  | updateOrderStatus (id status : String)
  | insertStatusHistory (order_id status : String) (notes : Option String)
  | insertOrderRow (order_number : String)
  | insertOrderItems
  | deleteOrder (id : String)
  | clearCart (user_id : String)
  | callSendOrderNotification (orderId : String)
deriving DecidableEq

/-- The route's `validStatuses` list. -/
def validStatuses : List String :=
  ["pending", "confirmed", "shipped", "delivered", "cancelled"]

/-- `PUT /:id/status` (orders route, lines 675-743): auth, profile lookup,
status validation, the `orders` update, and the `order_status_history`
insert.  `authedUser` is the user id recovered from the bearer token (`none`
for a missing header or failed `getUser`), `profileFound` whether the
`users` row exists, `updateOk` whether the `orders` update succeeds. -/
def putOrderStatus (authedUser : Option String) (profileFound : Bool)
    (id : String) (status : Option String) (notes : Option String)
    (updateOk : Bool) : HttpResponse × List DbEffect :=
  match authedUser with
  | none => (.err 401 "Unauthorized", [])
  | some _ =>
    if ¬ profileFound then (.err 404 "User profile not found", [])
    else if ¬ truthy status then (.err 400 "Status is required", [])
    else
      let st := status.getD ""
      if st ∉ validStatuses then (.err 400 "Invalid status value", [])
      else if ¬ updateOk then
        (.err 500 "Failed to update order status", [.updateOrderStatus id st])
      else
        (.ok, [.updateOrderStatus id st, .insertStatusHistory id st notes])

/-- The tail of `POST /` (order creation, lines 641-667), from the point the
order row has been inserted: insert the items (deleting the order again on
failure), clear the cart, and invoke `sendOrderNotification(order.id)`
inline. -/
def createOrderTail (order_id order_number user_id : String)
    (itemsInsertOk : Bool) : HttpResponse × List DbEffect :=
  if ¬ itemsInsertOk then
    (.err 500 "Failed to create order items",
      [.insertOrderRow order_number, .insertOrderItems, .deleteOrder order_id])
  else
    (.ok,
      [.insertOrderRow order_number, .insertOrderItems, .clearCart user_id,
        .callSendOrderNotification order_id])

/-!
## Concrete fixtures used by witnesses and counterexamples
-/

def sampleItem : OrderItem :=
  { product_name := "Honey Jar", quantity := 2, price := 6000, original_price := 5000,
    store_name := "Bee Farm", store_id := some "s1", image_url := none }

def sampleItem2 : OrderItem :=
  { product_name := "Candle", quantity := 1, price := 4500, original_price := 4000,
    store_name := "Candle Co", store_id := some "s2", image_url := none }

def sampleOrder : Order :=
  { id := "o1", order_number := "SOMAH-000123", full_name := "Aisha", phone := "0501234567",
    address_line1 := "1 Main St", address_line2 := none, city := "Dubai",
    emirate := "Dubai", total_amount := 12000, payment_method := "cash_on_delivery",
    notes := none, created_at := "2024-01-01T10:00:00Z", order_items := [sampleItem, sampleItem2] }

def sampleLoc : StoreLocation :=
  { store_id := "s1", location_type := "villa", street_number := "12",
    street_name := "Palm Street", place_name := "Marina", additional_info := none }

def notifA : NotificationRecord :=
  { id := "n1", order_id := "o1", notification_type := "new_order", message := "placeholder",
    sent := false, sent_at := none, created_at := 5 }

def notifB : NotificationRecord :=
  { id := "n2", order_id := "o1", notification_type := "order_update", message := "placeholder",
    sent := false, sent_at := none, created_at := 6 }

def notifC : NotificationRecord :=
  { id := "n3", order_id := "o2", notification_type := "new_order", message := "placeholder",
    sent := false, sent_at := none, created_at := 7 }

def sampleState : BotState :=
  { chat_id := some 99, orders := [sampleOrder], store_locations := [sampleLoc],
    notifications := [notifA, notifB, notifC], outbox := [] }

/-!
## Claim C2 — inline notification on status change to `confirmed`
-/

/-- Claim C2 (counterexample): a fully successful `PUT /:id/status` request
that moves order `o1` to `confirmed` issues exactly the `orders` update and
the `order_status_history` insert — the effect trace contains no
`sendOrderNotification` invocation, contradicting the claim that the
endpoint synchronously invokes the send-notification path. -/
theorem status_update_confirmed_cex :
    putOrderStatus (some "u1") true "o1" (some "confirmed") none true =
      (.ok, [.updateOrderStatus "o1" "confirmed",
             .insertStatusHistory "o1" "confirmed" none]) ∧
    DbEffect.callSendOrderNotification "o1" ∉
      (putOrderStatus (some "u1") true "o1" (some "confirmed") none true).2 := by
  decide

/-- Claim C2 (amended): the order-status-update endpoint never invokes
`sendOrderNotification`, for any input — including a transition to
`confirmed`; the inline synchronous invocation of the send-notification path
exists only in the order-creation handler, which calls
`sendOrderNotification(order.id)` after a successful item insert. -/
theorem status_update_no_inline_notification (authedUser : Option String)
    (profileFound : Bool) (id : String) (status notes : Option String)
    (updateOk : Bool) (oid onum uid : String) :
    DbEffect.callSendOrderNotification oid ∉
      (putOrderStatus authedUser profileFound id status notes updateOk).2 ∧
    DbEffect.callSendOrderNotification oid ∈ (createOrderTail oid onum uid true).2 := by
  constructor
  · cases authedUser with
    | none => simp [putOrderStatus]
    | some u =>
      simp only [putOrderStatus]
      split_ifs <;> simp
  · simp [createOrderTail]

/-!
## Claim C7 — unresolved order id is skipped without being marked sent
-/

/-- Claim C7: when the poller's send path cannot resolve the referenced
order (the fetch yields no row), `sendOrderNotification` leaves the entire
state unchanged: no chat message is appended to the outbox and every
notification record keeps its `sent` flag and `sent_at` — the record remains
eligible for the next poll. -/
theorem poll_skips_unresolved_order (st : BotState) (now oid : String) (c : Int)
    (hc : st.chat_id = some c) (h : lookupOrder st.orders oid = none) :
    sendOrderNotification st now oid = st ∧
    (sendOrderNotification st now oid).notifications = st.notifications ∧
    (sendOrderNotification st now oid).outbox = st.outbox := by
  have hst : sendOrderNotification st now oid = st := by
    unfold sendOrderNotification
    rw [hc, h]
  exact ⟨hst, by rw [hst], by rw [hst]⟩

/-- Witness for C7 at a concrete state: order id `ghost` resolves to no row,
and the send leaves the state untouched. -/
theorem poll_skips_unresolved_order_witness :
    sendOrderNotification sampleState "2024-02-02T00:00:00Z" "ghost" = sampleState :=
  (poll_skips_unresolved_order sampleState "2024-02-02T00:00:00Z" "ghost" 99
    (by rfl) (by decide)).1

/-!
## Claim C10 — mark-sent update is keyed by `order_id`
-/

/-- Claim C10: after a successful send for order `oid`, the mark-sent update
rewrites exactly the records whose `order_id` is `oid` — every such record
(of any notification kind) gets `sent = true` and `sent_at = now`, and every
record of a different order is carried over unchanged. -/
theorem mark_sent_keyed_by_order_id (st : BotState) (now oid : String) (c : Int)
    (order : Order) (hc : st.chat_id = some c)
    (ho : lookupOrder st.orders oid = some order) :
    (sendOrderNotification st now oid).notifications =
      st.notifications.map (fun n =>
        if n.order_id = oid then { n with sent := true, sent_at := some now } else n) ∧
    (∀ n ∈ st.notifications, n.order_id = oid →
      { n with sent := true, sent_at := some now } ∈
        (sendOrderNotification st now oid).notifications) ∧
    (∀ n ∈ st.notifications, n.order_id ≠ oid →
      n ∈ (sendOrderNotification st now oid).notifications) := by
  have hmap : (sendOrderNotification st now oid).notifications =
      st.notifications.map (fun n =>
        if n.order_id = oid then { n with sent := true, sent_at := some now } else n) := by
    unfold sendOrderNotification
    rw [hc, ho]
  refine ⟨hmap, ?_, ?_⟩
  · intro n hn heq
    rw [hmap]
    refine List.mem_map.mpr ⟨n, hn, ?_⟩
    rw [if_pos heq]
  · intro n hn hne
    rw [hmap]
    refine List.mem_map.mpr ⟨n, hn, ?_⟩
    rw [if_neg hne]

/-- Witness for C10 at a concrete state: order `o1` has a `new_order` and an
`order_update` record; a successful send for `o1` marks both sent (the
update is keyed by `order_id`), and order `o2`'s record is untouched. -/
theorem mark_sent_keyed_by_order_id_witness :
    (sendOrderNotification sampleState "2024-03-03T00:00:00Z" "o1").notifications =
      [{ notifA with sent := true, sent_at := some "2024-03-03T00:00:00Z" },
       { notifB with sent := true, sent_at := some "2024-03-03T00:00:00Z" },
       notifC] :=
  ((mark_sent_keyed_by_order_id sampleState "2024-03-03T00:00:00Z" "o1" 99 sampleOrder
    (by rfl) (by decide)).1).trans (by decide)

/-!
## Claim C6 — poll query shape
-/

theorem mem_insertCreated (x y : NotificationRecord) (l : List NotificationRecord) :
    y ∈ insertCreated x l ↔ y = x ∨ y ∈ l := by
  induction l with
  | nil => simp [insertCreated]
  | cons z zs ih =>
    simp only [insertCreated]
    split
    · simp [List.mem_cons, or_comm, or_assoc, or_left_comm]
    · simp only [List.mem_cons, ih, or_left_comm]

theorem sortByCreated_cons (z : NotificationRecord) (zs : List NotificationRecord) :
    sortByCreated (z :: zs) = insertCreated z (sortByCreated zs) := rfl

theorem mem_sortByCreated (x : NotificationRecord) (l : List NotificationRecord) :
    x ∈ sortByCreated l ↔ x ∈ l := by
  induction l with
  | nil => simp [sortByCreated]
  | cons z zs ih =>
    rw [sortByCreated_cons, mem_insertCreated, ih]
    simp [List.mem_cons]

theorem insertCreated_pairwise (x : NotificationRecord) (l : List NotificationRecord)
    (h : l.Pairwise (fun a b => a.created_at ≤ b.created_at)) :
    (insertCreated x l).Pairwise (fun a b => a.created_at ≤ b.created_at) := by
  induction l with
  | nil => simp [insertCreated]
  | cons z zs ih =>
    rcases List.pairwise_cons.mp h with ⟨hz, hzs⟩
    simp only [insertCreated]
    split
    case isTrue hle =>
      refine List.pairwise_cons.mpr ⟨?_, h⟩
      intro b hb
      rcases List.mem_cons.mp hb with rfl | hbz
      · exact hle
      · exact le_trans hle (hz b hbz)
    case isFalse hgt =>
      refine List.pairwise_cons.mpr ⟨?_, ih hzs⟩
      intro b hb
      rcases (mem_insertCreated x b zs).mp hb with rfl | hbz
      · exact Nat.le_of_not_le hgt
      · exact hz b hbz

theorem sortByCreated_pairwise (l : List NotificationRecord) :
    (sortByCreated l).Pairwise (fun a b => a.created_at ≤ b.created_at) := by
  induction l with
  | nil => simp [sortByCreated]
  | cons z zs ih => rw [sortByCreated_cons]; exact insertCreated_pairwise z _ ih

/-- Claim C6: every record a poll tick fetches has `sent = false` and kind
`new_order`; the batch never exceeds 10 records; the batch is in ascending
`created_at` (oldest-first) order; and the poll processes (sends) the batch
exactly in that list order. -/
theorem poll_batch_spec (notifs : List NotificationRecord) :
    (∀ n ∈ pollBatch notifs, n.sent = false ∧ n.notification_type = "new_order") ∧
    (pollBatch notifs).length ≤ 10 ∧
    (pollBatch notifs).Pairwise (fun a b => a.created_at ≤ b.created_at) ∧
    (∀ (st : BotState) (now : String), st.notifications = notifs →
      pollNotifications st now =
        (pollBatch notifs).foldl (fun s n => sendOrderNotification s now n.order_id) st) := by
  refine ⟨?_, ?_, ?_, ?_⟩
  · intro n hn
    have h1 : n ∈ sortByCreated (notifs.filter (fun n =>
        n.sent = false ∧ n.notification_type = "new_order")) := List.mem_of_mem_take hn
    have h2 := (mem_sortByCreated _ _).mp h1
    have h3 := (List.mem_filter.mp h2).2
    exact of_decide_eq_true h3
  · exact List.length_take_le 10 _
  · exact (sortByCreated_pairwise _).sublist (List.take_sublist 10 _)
  · intro st now hst
    rw [pollNotifications, hst]

/-!
## Claim C1 — financial breakdown
-/

set_option maxRecDepth 1000000

theorem mem_insertIdx {α : Type} (x y : String × α) (l : List (String × α)) :
    y ∈ insertIdx x l ↔ y = x ∨ y ∈ l := by
  induction l with
  | nil => simp [insertIdx]
  | cons z zs ih =>
    simp only [insertIdx]
    split
    · simp [List.mem_cons, or_comm, or_assoc, or_left_comm]
    · simp only [List.mem_cons, ih, or_left_comm]

theorem sortIdx_cons {α : Type} (z : String × α) (zs : List (String × α)) :
    sortIdx (z :: zs) = insertIdx z (sortIdx zs) := rfl

theorem mem_sortIdx {α : Type} (x : String × α) (l : List (String × α)) :
    x ∈ sortIdx l ↔ x ∈ l := by
  induction l with
  | nil => simp [sortIdx]
  | cons z zs ih =>
    rw [sortIdx_cons, mem_insertIdx, ih]
    simp [List.mem_cons]

theorem mem_jsEntries {α : Type} (x : String × α) (l : List (String × α)) :
    x ∈ jsEntries l ↔ x ∈ l := by
  unfold jsEntries
  rw [List.mem_append, mem_sortIdx]
  constructor
  · rintro (h | h) <;> exact (List.mem_filter.mp h).1
  · intro h
    by_cases hP : isArrayIndexKey x.1 = true
    · exact Or.inl (List.mem_filter.mpr ⟨h, hP⟩)
    · exact Or.inr (List.mem_filter.mpr ⟨h, by simp [hP]⟩)

/-- Claim C3 (counterexample): rendering the same order with the same
(absent) handler name against two different `store_locations` table states
yields different outputs — the formatter reads the database while rendering,
so its output is not a function of the order and handler name alone. -/
theorem formatter_depends_on_db_cex :
    formatOrderMessage [] sampleOrder none ≠
      formatOrderMessage [sampleLoc] sampleOrder none := by
  decide

/-- Claim C3 (amended): the formatter is a pure function of the order, the
optional handler name, and the `store_locations` rows of the stores
referenced by the order — it performs a read of that table per distinct
store (and no writes), and two renderings agree whenever those lookups
agree; in particular rendering the same order, handler name, and table state
twice is byte-identical. -/
theorem formatter_deterministic_given_locations (db1 db2 : List StoreLocation)
    (order : Order) (hb : Option String)
    (h : ∀ p ∈ uniqueStores order.order_items,
      lookupStoreLocation db1 p.1 = lookupStoreLocation db2 p.1) :
    formatOrderMessage db1 order hb = formatOrderMessage db2 order hb := by
  have hps : renderPickupSection db1 order.order_items =
      renderPickupSection db2 order.order_items := by
    unfold renderPickupSection
    congr 1
    congr 1
    apply List.map_congr_left
    intro p hp
    have hp2 : p ∈ uniqueStores order.order_items := (mem_jsEntries _ _).mp hp
    unfold renderPickupEntry
    rw [h p hp2]
  unfold formatOrderMessage
  rw [hps]

/-- Witness for C3 (amended) at concrete states: adding a row for a store
the order does not reference leaves the rendering unchanged. -/
theorem formatter_deterministic_given_locations_witness :
    formatOrderMessage [sampleLoc] sampleOrder none =
      formatOrderMessage [sampleLoc,
        { store_id := "s9", location_type := "warehouse", street_number := "1",
          street_name := "Dock Road", place_name := "Port", additional_info := none }]
        sampleOrder none :=
  formatter_deterministic_given_locations _ _ sampleOrder none (by decide)

theorem renderPickupEntry_none (db : List StoreLocation) (p : String × String)
    (h : lookupStoreLocation db p.1 = none) :
    renderPickupEntry db p = "<b>" ++ p.2 ++ ":</b>\n" ++ pickupFallback ++ "\n" := by
  unfold renderPickupEntry
  rw [h]

/-- Claim C8: for a store of the order whose pickup-location lookup finds no
row, the rendered message contains that store's sub-entry with the generic
contact-the-store-owner fallback, and the rest of the message is still
produced — the order-date and payment lines are rendered regardless. -/
theorem pickup_fallback_spec (db : List StoreLocation) (order : Order)
    (hb : Option String) (sid sname : String)
    (hmem : (sid, sname) ∈ uniqueStores order.order_items)
    (hnone : lookupStoreLocation db sid = none) :
    containsStr (formatOrderMessage db order hb)
      ("<b>" ++ sname ++ ":</b>\n" ++ pickupFallback ++ "\n") ∧
    containsStr (formatOrderMessage db order hb) (orderDateLine order.created_at) ∧
    containsStr (formatOrderMessage db order hb) (paymentLine order.payment_method) := by
  refine ⟨?_, ?_, ?_⟩
  · unfold formatOrderMessage
    apply containsStr_inl
    apply containsStr_inl
    apply containsStr_inl
    apply containsStr_inl
    apply containsStr_inl
    apply containsStr_inr
    unfold renderPickupSection
    apply containsStr_inr
    have hx : (sid, sname) ∈ jsEntries (uniqueStores order.order_items) :=
      (mem_jsEntries _ _).mpr hmem
    have hc := containsStr_concat (renderPickupEntry db) _ _ hx
    rw [renderPickupEntry_none db (sid, sname) hnone] at hc
    exact hc
  · unfold formatOrderMessage
    apply containsStr_inl
    apply containsStr_inl
    apply containsStr_inl
    apply containsStr_inl
    apply containsStr_inr
    exact containsStr_refl _
  · unfold formatOrderMessage
    apply containsStr_inl
    apply containsStr_inl
    apply containsStr_inl
    apply containsStr_inr
    exact containsStr_refl _

/-- Witness for C8 at a concrete order: store `Candle Co` (id `s2`) has no
`store_locations` row, its sub-entry falls back, and the date and payment
lines still render. -/
theorem pickup_fallback_spec_witness :
    containsStr (formatOrderMessage [sampleLoc] sampleOrder none)
      ("<b>" ++ "Candle Co" ++ ":</b>\n" ++ pickupFallback ++ "\n") ∧
    containsStr (formatOrderMessage [sampleLoc] sampleOrder none)
      (orderDateLine sampleOrder.created_at) ∧
    containsStr (formatOrderMessage [sampleLoc] sampleOrder none)
      (paymentLine sampleOrder.payment_method) :=
  pickup_fallback_spec [sampleLoc] sampleOrder none "s2" "Candle Co" (by decide) (by decide)

/-!
## Claim C5 — grouping by store and rendering order
-/

/-- The spec's notion: store names in order of first appearance in the
order's line list. -/
def firstAppearance (items : List OrderItem) : List String :=
  items.foldl (fun acc it => if it.store_name ∈ acc then acc else acc ++ [it.store_name]) []

/-- Characterization of the `storeGroups` object: one entry per first
appearance, carrying exactly that store's lines in original order. -/
def groupsOf (items : List OrderItem) : List (String × List OrderItem) :=
  (firstAppearance items).map (fun s => (s, items.filter (fun it => it.store_name = s)))

theorem firstAppearance_append_singleton (pre : List OrderItem) (it : OrderItem) :
    firstAppearance (pre ++ [it]) =
      if it.store_name ∈ firstAppearance pre then firstAppearance pre
      else firstAppearance pre ++ [it.store_name] := by
  unfold firstAppearance
  rw [List.foldl_append]
  rfl

theorem buildStoreGroups_append_singleton (pre : List OrderItem) (it : OrderItem) :
    buildStoreGroups (pre ++ [it]) = insertGroup (buildStoreGroups pre) it := by
  unfold buildStoreGroups
  rw [List.foldl_append]
  rfl

theorem mem_firstAppearance_aux (s : String) (items : List OrderItem) (acc : List String) :
    s ∈ items.foldl
        (fun acc it => if it.store_name ∈ acc then acc else acc ++ [it.store_name]) acc ↔
      s ∈ acc ∨ ∃ x ∈ items, x.store_name = s := by
  induction items generalizing acc with
  | nil => simp
  | cons y ys ih =>
    rw [List.foldl_cons, ih]
    by_cases hy : y.store_name ∈ acc
    · rw [if_pos hy]
      constructor
      · rintro (h | ⟨x, hx, rfl⟩)
        · exact Or.inl h
        · exact Or.inr ⟨x, List.mem_cons_of_mem _ hx, rfl⟩
      · rintro (h | ⟨x, hx, rfl⟩)
        · exact Or.inl h
        · rcases List.mem_cons.mp hx with rfl | hx2
          · exact Or.inl hy
          · exact Or.inr ⟨x, hx2, rfl⟩
    · rw [if_neg hy]
      constructor
      · rintro (h | ⟨x, hx, rfl⟩)
        · rcases List.mem_append.mp h with h2 | h2
          · exact Or.inl h2
          · exact Or.inr ⟨y, List.mem_cons_self _ _, (List.mem_singleton.mp h2).symm⟩
        · exact Or.inr ⟨x, List.mem_cons_of_mem _ hx, rfl⟩
      · rintro (h | ⟨x, hx, rfl⟩)
        · exact Or.inl (List.mem_append.mpr (Or.inl h))
        · rcases List.mem_cons.mp hx with rfl | hx2
          · exact Or.inl (List.mem_append.mpr (Or.inr (List.mem_singleton.mpr rfl)))
          · exact Or.inr ⟨x, hx2, rfl⟩

theorem mem_firstAppearance (s : String) (items : List OrderItem) :
    s ∈ firstAppearance items ↔ ∃ x ∈ items, x.store_name = s := by
  unfold firstAppearance
  rw [mem_firstAppearance_aux]
  simp

theorem groupsOf_keys (items : List OrderItem) :
    (groupsOf items).map Prod.fst = firstAppearance items := by
  unfold groupsOf
  rw [List.map_map]
  exact List.map_id _

theorem insertGroup_groupsOf (pre : List OrderItem) (it : OrderItem) :
    insertGroup (groupsOf pre) it = groupsOf (pre ++ [it]) := by
  by_cases hmem : it.store_name ∈ firstAppearance pre
  · have hany : (groupsOf pre).any (fun p => p.1 = it.store_name) = true := by
      rw [List.any_eq_true]
      have hk : it.store_name ∈ (groupsOf pre).map Prod.fst := by
        rw [groupsOf_keys]; exact hmem
      rcases List.mem_map.mp hk with ⟨p, hp, hfst⟩
      exact ⟨p, hp, by simp [hfst]⟩
    unfold insertGroup
    rw [if_pos hany]
    unfold groupsOf
    rw [firstAppearance_append_singleton, if_pos hmem, List.map_map]
    apply List.map_congr_left
    intro s hs
    by_cases hseq : s = it.store_name
    · subst hseq
      dsimp only [Function.comp_apply]
      rw [if_pos rfl]
      have hfil : (pre ++ [it]).filter (fun x => x.store_name = it.store_name) =
          pre.filter (fun x => x.store_name = it.store_name) ++ [it] := by
        rw [List.filter_append]
        simp [List.filter]
      rw [hfil]
    · dsimp only [Function.comp_apply]
      rw [if_neg hseq]
      have hne : ¬ (it.store_name = s) := fun h => hseq h.symm
      have hfil : (pre ++ [it]).filter (fun x => x.store_name = s) =
          pre.filter (fun x => x.store_name = s) := by
        rw [List.filter_append]
        simp [List.filter, hne]
      rw [hfil]
  · have hany : ¬ ((groupsOf pre).any (fun p => p.1 = it.store_name) = true) := by
      rw [List.any_eq_true]
      rintro ⟨p, hp, hfst⟩
      have hk : p.1 ∈ (groupsOf pre).map Prod.fst := List.mem_map_of_mem _ hp
      rw [groupsOf_keys] at hk
      exact hmem ((of_decide_eq_true hfst) ▸ hk)
    unfold insertGroup
    rw [if_neg hany]
    unfold groupsOf
    rw [firstAppearance_append_singleton, if_neg hmem, List.map_append]
    congr 1
    · apply List.map_congr_left
      intro s hs
      have hne : ¬ (it.store_name = s) := fun h => hmem (h ▸ hs)
      have hfil : (pre ++ [it]).filter (fun x => x.store_name = s) =
          pre.filter (fun x => x.store_name = s) := by
        rw [List.filter_append]
        simp [List.filter, hne]
      rw [hfil]
    · have hempty : pre.filter (fun x => x.store_name = it.store_name) = [] := by
        rw [List.filter_eq_nil_iff]
        intro x hx
        simp only [decide_eq_true_eq]
        intro heq
        exact hmem ((mem_firstAppearance _ _).mpr ⟨x, hx, heq⟩)
      have hfil : (pre ++ [it]).filter (fun x => x.store_name = it.store_name) = [it] := by
        rw [List.filter_append, hempty]
        simp [List.filter]
      simp only [List.map_cons, List.map_nil]
      rw [hfil]

theorem buildStoreGroups_eq (items : List OrderItem) :
    buildStoreGroups items = groupsOf items := by
  induction items using List.reverseRecOn with
  | nil => rfl
  | append_singleton l it ih =>
    rw [buildStoreGroups_append_singleton, ih, insertGroup_groupsOf]

theorem jsEntries_eq_self {α : Type} (l : List (String × α))
    (h : ∀ p ∈ l, isArrayIndexKey p.1 = false) : jsEntries l = l := by
  unfold jsEntries
  have h1 : l.filter (fun p => isArrayIndexKey p.1) = [] := by
    rw [List.filter_eq_nil_iff]
    intro p hp
    simp [h p hp]
  have h2 : l.filter (fun p => !isArrayIndexKey p.1) = l := by
    rw [List.filter_eq_self]
    intro p hp
    simp [h p hp]
  rw [h1, h2]
  rfl

def numItemA : OrderItem :=
  { product_name := "A", quantity := 1, price := 100, original_price := 100,
    store_name := "2", store_id := some "sA", image_url := none }

def numItemB : OrderItem :=
  { product_name := "B", quantity := 1, price := 100, original_price := 100,
    store_name := "1", store_id := some "sB", image_url := none }

/-- Claim C5 (counterexample): for an order whose lines reference store `"2"`
first and store `"1"` second, the rendered ORDER DETAILS section lists the
`Store: 1` sub-block before `Store: 2` — `Object.entries` puts integer-like
property keys in ascending numeric order, not insertion order, so the
sub-blocks do not follow first appearance. -/
theorem store_grouping_numeric_name_cex :
    firstAppearance [numItemA, numItemB] = ["2", "1"] ∧
    (jsEntries (buildStoreGroups [numItemA, numItemB])).map Prod.fst = ["1", "2"] ∧
    (jsEntries (buildStoreGroups [numItemA, numItemB])).map Prod.fst ≠
      firstAppearance [numItemA, numItemB] ∧
    renderOrderDetails [numItemA, numItemB] =
      "📦 <b>ORDER DETAILS:</b>\n" ++
        "<b>Store: 1</b>\n- 1x B (AED 1)\n\n" ++ "<b>Store: 2</b>\n- 1x A (AED 1)\n\n" := by
  refine ⟨by decide, by decide, by decide, ?_⟩
  decide

/-- Claim C5 (amended): provided no store name is a canonical array-index
string (the decimal numeral of an integer below `2^32 - 1` — `Object.entries`
reorders such keys numerically first), the rendered message has one sub-block
per distinct store name in the order of each name's first appearance in the
line list; each sub-block carries exactly that store's lines, in their
original order, each rendered with quantity, product name and charged price;
and the so-ordered ORDER DETAILS section appears in the rendered message. -/
theorem store_grouping_first_appearance (items : List OrderItem)
    (h : ∀ it ∈ items, isArrayIndexKey it.store_name = false) :
    (jsEntries (buildStoreGroups items)).map Prod.fst = firstAppearance items ∧
    (∀ p ∈ jsEntries (buildStoreGroups items),
      p.2 = items.filter (fun it => it.store_name = p.1)) ∧
    (∀ (order : Order) (db : List StoreLocation) (hb : Option String),
      order.order_items = items →
        containsStr (formatOrderMessage db order hb) (renderOrderDetails items)) := by
  have hkeys : ∀ p ∈ buildStoreGroups items, isArrayIndexKey p.1 = false := by
    intro p hp
    rw [buildStoreGroups_eq] at hp
    unfold groupsOf at hp
    rcases List.mem_map.mp hp with ⟨s, hs, rfl⟩
    rcases (mem_firstAppearance s items).mp hs with ⟨x, hx, rfl⟩
    exact h x hx
  have hself : jsEntries (buildStoreGroups items) = buildStoreGroups items :=
    jsEntries_eq_self _ hkeys
  refine ⟨?_, ?_, ?_⟩
  · rw [hself, buildStoreGroups_eq, groupsOf_keys]
  · intro p hp
    rw [hself, buildStoreGroups_eq] at hp
    unfold groupsOf at hp
    rcases List.mem_map.mp hp with ⟨s, _, rfl⟩
    rfl
  · intro order db hb horder
    unfold formatOrderMessage
    rw [horder]
    apply containsStr_inl
    apply containsStr_inl
    apply containsStr_inl
    apply containsStr_inl
    apply containsStr_inl
    apply containsStr_inl
    apply containsStr_inl
    apply containsStr_inr
    exact containsStr_refl _

/-- Witness for C5 (amended) at the sample order (names `Bee Farm` and
`Candle Co`, not array-index strings): the rendered grouping follows first
appearance and the section is in the message. -/
theorem store_grouping_first_appearance_witness :
    (jsEntries (buildStoreGroups sampleOrder.order_items)).map Prod.fst =
      firstAppearance sampleOrder.order_items ∧
    containsStr (formatOrderMessage [] sampleOrder none)
      (renderOrderDetails sampleOrder.order_items) :=
  ⟨(store_grouping_first_appearance sampleOrder.order_items (by decide)).1,
   (store_grouping_first_appearance sampleOrder.order_items (by decide)).2.2
     sampleOrder [] none rfl⟩

/-!
## Claims C4 and C9 — assignment state machine, payload validation
-/

theorem splitChars_ne_nil (sep : Char) (l : List Char) : splitChars sep l ≠ [] := by
  cases l with
  | nil => simp [splitChars]
  | cons c cs =>
    unfold splitChars
    by_cases hc : c = sep
    · rw [if_pos hc]
      simp
    · rw [if_neg hc]
      cases hsc : splitChars sep cs <;> simp

theorem splitChars_sep_cons (sep : Char) (l : List Char) :
    splitChars sep (sep :: l) = [] :: splitChars sep l := by
  have hunf : splitChars sep (sep :: l) =
      if sep = sep then [] :: splitChars sep l
      else
        match splitChars sep l with
        | [] => [[sep]]
        | g :: gs => (sep :: g) :: gs := rfl
  rw [hunf, if_pos rfl]

theorem splitChars_no_sep (sep : Char) (xs l : List Char) (hxs : ∀ c ∈ xs, c ≠ sep) :
    splitChars sep (xs ++ l) =
      (xs ++ (splitChars sep l).headI) :: (splitChars sep l).tail := by
  induction xs with
  | nil =>
    simp only [List.nil_append]
    rcases List.exists_cons_of_ne_nil (splitChars_ne_nil sep l) with ⟨g, gs, hgl⟩
    rw [hgl]
    simp
  | cons x xs ih =>
    have hx : x ≠ sep := hxs x (List.mem_cons_self _ _)
    have hxs2 : ∀ c ∈ xs, c ≠ sep := fun c hc => hxs c (List.mem_cons_of_mem _ hc)
    simp only [List.cons_append]
    have hunf : splitChars sep (x :: (xs ++ l)) =
        if x = sep then [] :: splitChars sep (xs ++ l)
        else
          match splitChars sep (xs ++ l) with
          | [] => [[x]]
          | g :: gs => (x :: g) :: gs := rfl
    rw [hunf, if_neg hx, ih hxs2]

theorem splitChars_no_sep_all (sep : Char) (xs : List Char) (hxs : ∀ c ∈ xs, c ≠ sep) :
    splitChars sep xs = [xs] := by
  have h := splitChars_no_sep sep xs [] hxs
  rw [List.append_nil] at h
  rw [h]
  simp [splitChars]

theorem strMk_data (s : String) : String.mk s.data = s := by
  cases s
  rfl

theorem jsSplit_three (oid m : String) (hoid : ∀ c ∈ oid.data, c ≠ '_')
    (hm : ∀ c ∈ m.data, c ≠ '_') :
    jsSplit ("handle_" ++ oid ++ "_" ++ m) '_' = ["handle", oid, m] := by
  have hdata : ("handle_" ++ oid ++ "_" ++ m).data =
      "handle".data ++ ('_' :: (oid.data ++ ('_' :: m.data))) := by
    rw [strData_append, strData_append, strData_append]
    rw [show "handle_".data = "handle".data ++ ['_'] from by decide]
    rw [show "_".data = ['_'] from by decide]
    simp [List.append_assoc]
  unfold jsSplit
  rw [hdata]
  rw [splitChars_no_sep '_' ("handle".data) _ (by decide)]
  rw [splitChars_sep_cons]
  rw [splitChars_no_sep '_' oid.data _ hoid]
  rw [splitChars_sep_cons]
  rw [splitChars_no_sep_all '_' m.data hm]
  simp [strMk_data]

theorem handleCallbackQuery_claim (orders : List Order) (locs : List StoreLocation)
    (oid low : String) (order : Order)
    (hoid : ∀ c ∈ oid.data, c ≠ '_') (hlow : ∀ c ∈ low.data, c ≠ '_')
    (hlook : lookupOrder orders oid = some order) :
    handleCallbackQuery orders locs ("handle_" ++ oid ++ "_" ++ low) =
      ⟨some (formatOrderMessage locs order (some (jsCapitalize low)),
         createHandledKeyboard (jsCapitalize low)),
       some ("✅ Order assigned to " ++ jsCapitalize low, false)⟩ := by
  have hsplit := jsSplit_three oid low hoid hlow
  have hne : ("handle_" ++ oid ++ "_" ++ low) ≠ "handled" := by
    intro heq
    have hlen := congrArg (fun s => s.data.length) heq
    simp only [strData_append, List.length_append] at hlen
    rw [show ("handle_".data.length = 7) from by decide,
      show ("handled".data.length = 7) from by decide,
      show ("_".data.length = 1) from by decide] at hlen
    omega
  unfold handleCallbackQuery
  rw [if_neg hne, hsplit]
  rw [if_neg (show ¬ ((["handle", oid, low].get? 0).getD "" ≠ "handle") from by simp)]
  have hget2 : (["handle", oid, low].get? 2) = some low := rfl
  have hget1 : ((["handle", oid, low].get? 1).getD "") = oid := rfl
  rw [hget2, hget1, hlook]

/-- Claim C4: the per-message assignment state machine.  A click on a button
of the unassigned message's keyboard (one per team member, carrying
`handle_<orderId>_<member>`) edits the message to the handled text with the
single disabled acknowledgement control `createHandledKeyboard`; every click
on an already-assigned message's acknowledgement control (callback data
`handled` — the only control such a message carries, making the assigned
state terminal) is answered with the non-blocking "already assigned" notice
and performs no edit.  Order ids are UUIDs and contain no `_`. -/
theorem claim_state_machine (orders : List Order) (locs : List StoreLocation)
    (oid handler : String) :
    (∀ row ∈ createHandledKeyboard handler, ∀ b ∈ row,
      handleCallbackQuery orders locs b.callback_data =
        ⟨none, some ("✅ This order is already assigned", false)⟩) ∧
    (∀ m ∈ TEAM_MEMBERS, ∀ order : Order, (∀ c ∈ oid.data, c ≠ '_') →
      lookupOrder orders oid = some order →
      (∃ row ∈ createHandlerKeyboard oid,
        (⟨"👤 Handled by " ++ m, "handle_" ++ oid ++ "_" ++ jsToLower m⟩ : Button) ∈ row) ∧
      handleCallbackQuery orders locs ("handle_" ++ oid ++ "_" ++ jsToLower m) =
        ⟨some (formatOrderMessage locs order (some (jsCapitalize (jsToLower m))),
           createHandledKeyboard (jsCapitalize (jsToLower m))),
         some ("✅ Order assigned to " ++ jsCapitalize (jsToLower m), false)⟩) := by
  constructor
  · intro row hrow b hb
    rw [createHandledKeyboard, List.mem_singleton] at hrow
    subst hrow
    rw [List.mem_singleton] at hb
    subst hb
    unfold handleCallbackQuery
    rw [if_pos rfl]
  · intro m hm order hoid hlook
    constructor
    · refine ⟨TEAM_MEMBERS.map (fun member =>
        ⟨"👤 Handled by " ++ member, "handle_" ++ oid ++ "_" ++ jsToLower member⟩),
        List.mem_singleton.mpr rfl, ?_⟩
      exact List.mem_map_of_mem _ hm
    · have hlowm : ∀ c ∈ (jsToLower m).data, c ≠ '_' := by
        rw [TEAM_MEMBERS] at hm
        rcases List.mem_cons.mp hm with rfl | hm2
        · decide
        · rcases List.mem_cons.mp hm2 with rfl | hm3
          · decide
          · rw [List.mem_singleton.mp hm3]
            decide
      exact handleCallbackQuery_claim orders locs oid (jsToLower m) order hoid hlowm hlook

/-- Witness for C4 at concrete data: clicking `Khaled`'s button on order
`o1`'s unassigned message assigns it, and a click on the resulting
acknowledgement control is rejected without an edit. -/
theorem claim_state_machine_witness :
    handleCallbackQuery [sampleOrder] [sampleLoc] ("handle_" ++ "o1" ++ "_" ++ jsToLower "Khaled") =
      ⟨some (formatOrderMessage [sampleLoc] sampleOrder (some (jsCapitalize (jsToLower "Khaled"))),
         createHandledKeyboard (jsCapitalize (jsToLower "Khaled"))),
       some ("✅ Order assigned to " ++ jsCapitalize (jsToLower "Khaled"), false)⟩ ∧
    handleCallbackQuery [sampleOrder] [sampleLoc]
        (Button.callback_data ⟨"✅ Handled by Khaled", "handled"⟩) =
      ⟨none, some ("✅ This order is already assigned", false)⟩ :=
  ⟨((claim_state_machine [sampleOrder] [sampleLoc] "o1" "Khaled").2 "Khaled" (by decide)
      sampleOrder (by decide) (by decide)).2,
   (claim_state_machine [sampleOrder] [sampleLoc] "o1" "Khaled").1
     [⟨"✅ Handled by Khaled", "handled"⟩] (by decide) _ (by decide)⟩

/-- Claim C9 (counterexample): the payload `handle_o1_eve` carries a handler
identifier that is not in the fixed roster (`TEAM_MEMBERS`, lowercased for
callback data), so the claim requires it to be ignored — but the handler
performs the edit, assigning the message to `Eve`: the roster is never
validated. -/
theorem roster_not_validated_cex :
    ("eve" ∉ TEAM_MEMBERS.map jsToLower) ∧
    (handleCallbackQuery [sampleOrder] [] "handle_o1_eve").edited =
      some (formatOrderMessage [] sampleOrder (some "Eve"), createHandledKeyboard "Eve") := by
  exact ⟨by decide, by decide⟩

/-- Claim C9 (amended): a payload whose action tag is not `handle` is ignored
outright (no edit, no answer, no state change); the acknowledgement payload
`handled`, a payload missing its third (handler) segment, and a payload whose
order id does not resolve all cause no message edit (the latter two answer
with an error notice); but a payload's handler segment is never checked
against the roster — any handler string with a resolvable order id causes the
assignment edit. -/
theorem malformed_payload_handling (orders : List Order) (locs : List StoreLocation)
    (data : String) :
    ((data ≠ "handled" ∧ ((jsSplit data '_').get? 0).getD "" ≠ "handle") →
      handleCallbackQuery orders locs data = ⟨none, none⟩) ∧
    (data = "handled" → (handleCallbackQuery orders locs data).edited = none) ∧
    ((jsSplit data '_').get? 2 = none →
      (handleCallbackQuery orders locs data).edited = none) ∧
    (∀ s, (jsSplit data '_').get? 2 = some s →
      lookupOrder orders (((jsSplit data '_').get? 1).getD "") = none →
      (handleCallbackQuery orders locs data).edited = none) := by
  refine ⟨?_, ?_, ?_, ?_⟩
  · rintro ⟨h1, h2⟩
    unfold handleCallbackQuery
    rw [if_neg h1, if_pos h2]
  · intro h1
    subst h1
    unfold handleCallbackQuery
    rw [if_pos rfl]
  · intro h3
    unfold handleCallbackQuery
    by_cases h1 : data = "handled"
    · rw [if_pos h1]
    · rw [if_neg h1]
      by_cases h2 : ((jsSplit data '_').get? 0).getD "" ≠ "handle"
      · rw [if_pos h2]
      · rw [if_neg h2, h3]
  · intro s h4 hlook
    unfold handleCallbackQuery
    by_cases h1 : data = "handled"
    · rw [if_pos h1]
    · rw [if_neg h1]
      by_cases h2 : ((jsSplit data '_').get? 0).getD "" ≠ "handle"
      · rw [if_pos h2]
      · rw [if_neg h2, h4, hlook]

/-- Witness for C9 (amended) at concrete payloads: garbage is ignored, a
truncated payload and an unresolvable order id cause no edit. -/
theorem malformed_payload_handling_witness :
    handleCallbackQuery [sampleOrder] [] "nonsense" = ⟨none, none⟩ ∧
    (handleCallbackQuery [sampleOrder] [] "handled").edited = none ∧
    (handleCallbackQuery [sampleOrder] [] "handle_o1").edited = none ∧
    (handleCallbackQuery [sampleOrder] [] "handle_ghost_khaled").edited = none :=
  ⟨(malformed_payload_handling [sampleOrder] [] "nonsense").1 (by decide),
   (malformed_payload_handling [sampleOrder] [] "handled").2.1 rfl,
   (malformed_payload_handling [sampleOrder] [] "handle_o1").2.2.1 (by decide),
   (malformed_payload_handling [sampleOrder] [] "handle_ghost_khaled").2.2.2
     "khaled" (by decide) (by decide)⟩

/-- Witness for C6 at a concrete record list and state: the batch facts and
the processing-order equation instantiated at `sampleState`. -/
theorem poll_batch_spec_witness :
    (∀ n ∈ pollBatch [notifC, notifB, notifA],
      n.sent = false ∧ n.notification_type = "new_order") ∧
    (pollBatch [notifC, notifB, notifA]).length ≤ 10 ∧
    pollNotifications sampleState "2024-04-04T00:00:00Z" =
      (pollBatch sampleState.notifications).foldl
        (fun s n => sendOrderNotification s "2024-04-04T00:00:00Z" n.order_id) sampleState :=
  ⟨(poll_batch_spec [notifC, notifB, notifA]).1,
   (poll_batch_spec [notifC, notifB, notifA]).2.1,
   (poll_batch_spec sampleState.notifications).2.2.2 sampleState "2024-04-04T00:00:00Z" rfl⟩
